import Mathlib

/-!
Verification development for the clean-architecture Go repository
(`internal/domain/entities/users.go`, `internal/domain/usecases/user_usecases.go`,
`internal/domain/repositories/repo.md`, and the pointer-semantics demonstration
file with `MockUserRepository`).

Modelling conventions:
* A Go `string` is embedded as a list of Unicode code points (`List Nat`);
  `len` on a Go string counts UTF-8 bytes, embedded as `goLen` below.
* `strings.ToLower` and `strings.TrimSpace` are embedded faithfully on the
  ASCII and Latin-1 ranges (the ranges the validators mention); code points
  outside those ranges are left unchanged.
* `time.Now()` is embedded as an explicit `now : Int` parameter.
* Go `int` is embedded as `Int` (no arithmetic here approaches overflow);
  Go's `/` on int truncates toward zero, embedded as `Int.div`.
* Pointer aliasing (for the mock-repository claims) is embedded with an
  explicit heap: addresses are `Nat`, the heap is an association list.
-/

/-- Go string embedded as its list of Unicode code points. -/
abbrev GoStr := List Nat

/-- Turn a Lean string literal into the embedded Go string. -/
def gs (s : String) : GoStr := s.data.map Char.toNat

/-- UTF-8 byte width of one code point (as produced by Go's encoder). -/
def utf8Len (n : Nat) : Nat :=
  if n < 128 then 1 else if n < 2048 then 2 else if n < 65536 then 3 else 4

/-- Go `len(s)` on a string: number of UTF-8 bytes. -/
def goLen (s : GoStr) : Nat := (s.map utf8Len).sum

/-- Go `unicode.IsSpace` restricted to the Latin-1 range: tab, LF, VT, FF,
CR, space, NEL (U+0085) and NBSP (U+00A0). -/
def goIsSpace (n : Nat) : Bool :=
  decide (n = 9 ∨ n = 10 ∨ n = 11 ∨ n = 12 ∨ n = 13 ∨ n = 32 ∨ n = 133 ∨ n = 160)

/-- Go `strings.TrimSpace`: drop whitespace from both ends. -/
def goTrimSpace (s : GoStr) : GoStr :=
  ((s.dropWhile goIsSpace).reverse.dropWhile goIsSpace).reverse

/-- Go `unicode.ToLower` on one code point, restricted to ASCII and Latin-1:
`A`-`Z` and `À`-`Þ` (except `×`) shift by 32; everything else is unchanged. -/
def goToLowerChar (n : Nat) : Nat :=
  if 65 ≤ n ∧ n ≤ 90 then n + 32
  else if 192 ≤ n ∧ n ≤ 222 ∧ n ≠ 215 then n + 32
  else n

/-- Go `strings.ToLower`. -/
def goToLower (s : GoStr) : GoStr := s.map goToLowerChar

/-- The write-time email normalization used by `NewUser`:
`strings.ToLower(strings.TrimSpace(email))`. -/
def goNormalize (s : GoStr) : GoStr := goToLower (goTrimSpace s)

/-- `leadsWith w s` holds when `w` is an initial segment of `s`
(executable helper for the substring search of the offensive-name regex). -/
def leadsWith : GoStr → GoStr → Bool
  | [], _ => true
  | _ :: _, [] => false
  | a :: as, b :: bs => a == b && leadsWith as bs

/-- `occursIn w s` holds when `w` occurs contiguously inside `s`
(executable substring search, the semantics of an unanchored regex match). -/
def occursIn (w : GoStr) : GoStr → Bool
  | [] => leadsWith w []
  | c :: t => leadsWith w (c :: t) || occursIn w t

/-- The word list of `offensiveNameRegex` in `users.go`. -/
def offensiveWords : List GoStr :=
  [gs ("fuck"), gs ("shit"), gs ("damn"), gs ("idiot"), gs ("stupid"),
   gs ("hitler"), gs ("cunt")]

/-- `offensiveNameRegex.MatchString t`: the case-insensitive regex
`(?i)(fuck|shit|damn|idiot|stupid|hitler|cunt)` matches somewhere in `t`.
Case folding is embedded with `goToLowerChar` (the words are ASCII). -/
def offensiveMatch (t : GoStr) : Bool :=
  offensiveWords.any (fun w => occursIn w (goToLower t))

/-- One character of `validNameRegex` = `^[a-zA-ZÀ-ÿ\s\-'.]+$` in `users.go`:
ASCII letters, the Latin-1 range `À`-`ÿ` (code points 192-255), RE2's `\s`
class (tab, LF, FF, CR, space), hyphen, apostrophe, period. -/
def validNameChar (n : Nat) : Bool :=
  decide ((97 ≤ n ∧ n ≤ 122) ∨ (65 ≤ n ∧ n ≤ 90) ∨ (192 ≤ n ∧ n ≤ 255) ∨
    n = 9 ∨ n = 10 ∨ n = 12 ∨ n = 13 ∨ n = 32 ∨ n = 45 ∨ n = 39 ∨ n = 46)

/-- `validateEmail` from `users.go`: trim, then reject empty, missing `@`,
or more than 255 bytes, in that order. -/
def validateEmail (email : GoStr) : Option String :=
  if goTrimSpace email = [] then some ("email can't be empty")
  else if ¬ (64 ∈ goTrimSpace email) then some ("invalid email")
  else if goLen (goTrimSpace email) > 255 then some ("email too long")
  else none

/-- `validateName` from `users.go`: trim, then reject empty, fewer than 2
bytes, more than 100 bytes, an offensive-regex match, or a character outside
the valid-name class, in that order.  (The regex `+` also demands a nonempty
string, but the empty case was already rejected.) -/
def validateName (name : GoStr) : Option String :=
  if goTrimSpace name = [] then some ("empty name")
  else if goLen (goTrimSpace name) < 2 then
    some ("brother nobody has such a short name")
  else if goLen (goTrimSpace name) > 100 then
    some ("brother nobody has such a long name")
  else if offensiveMatch (goTrimSpace name) then
    some ("offensive name non approprié")
  else if ¬ ((goTrimSpace name).all validNameChar = true) then
    some ("nom contient des caractères invalides")
  else none

/-- `validatePassword` from `users.go`: reject empty, fewer than 6 bytes, or
more than 128 bytes, in that order (no trimming). -/
def validatePassword (password : GoStr) : Option String :=
  if password = [] then some ("mot de passe ne peut pas être vide")
  else if goLen password < 6 then some ("mot de passe trop court (min 6 caractères)")
  else if goLen password > 128 then some ("mot de passe trop long (max 128 caractères)")
  else none

/-- The `User` entity of `users.go`; timestamps are embedded as `Int`. -/
structure User where
  ID : Int
  Email : GoStr
  Name : GoStr
  Password : GoStr
  Created : Int
  Updated : Int
deriving DecidableEq

/-- `NewUser` from `users.go`: validate email, name, password in order, then
build the record with normalized email, trimmed name, the password verbatim,
and `Created = Updated = now` (`now` embeds the single `time.Now()` call). -/
def NewUser (email name password : GoStr) (now : Int) : Except String User :=
  match validateEmail email with
  | some e => .error e
  | none =>
    match validateName name with
    | some e => .error e
    | none =>
      match validatePassword password with
      | some e => .error e
      | none =>
        .ok ⟨0, goToLower (goTrimSpace email), goTrimSpace name, password, now, now⟩

/-- `(*User).UpdateUserProfile` from `users.go`: validate name then email;
on failure return the error with the receiver untouched, otherwise assign
trimmed name, normalized email, and `Updated = now`. -/
def UpdateUserProfile (u : User) (name email : GoStr) (now : Int) :
    Option String × User :=
  match validateName name with
  | some e => (some e, u)
  | none =>
    match validateEmail email with
    | some e => (some e, u)
    | none =>
      (none, { u with Name := goTrimSpace name,
                      Email := goToLower (goTrimSpace email), Updated := now })

/-- `(*User).ChangePassword` from `users.go`: validate the new password; on
failure return the error with the receiver untouched, otherwise assign the
password verbatim and `Updated = now`. -/
def ChangePassword (u : User) (newPassword : GoStr) (now : Int) :
    Option String × User :=
  match validatePassword newPassword with
  | some e => (some e, u)
  | none => (none, { u with Password := newPassword, Updated := now })

/-- Decidable equality on `Except`, so concrete runs can be settled with
`decide`. -/
instance exceptDecEq {ε α : Type} [DecidableEq ε] [DecidableEq α] :
    DecidableEq (Except ε α)
  | .error e, .error f =>
    if h : e = f then .isTrue (h ▸ rfl)
    else .isFalse (fun c => h (Except.error.inj c))
  | .error _, .ok _ => .isFalse (fun c => Except.noConfusion c)
  | .ok _, .error _ => .isFalse (fun c => Except.noConfusion c)
  | .ok a, .ok b =>
    if h : a = b then .isTrue (h ▸ rfl)
    else .isFalse (fun c => h (Except.ok.inj c))

/-- Association-list lookup (embedding of a Go map read). -/
def alookup {κ α : Type} [DecidableEq κ] : List (κ × α) → κ → Option α
  | [], _ => none
  | (k, v) :: t, q => if k = q then some v else alookup t q

/-- Remove every binding of a key (embedding of Go `delete(m, k)`). -/
def removeKey {κ α : Type} [DecidableEq κ] : List (κ × α) → κ → List (κ × α)
  | [], _ => []
  | (k', v) :: t, k => if k' = k then removeKey t k else (k', v) :: removeKey t k

/-- Replace the value bound to a key (embedding of a Go map overwrite). -/
def mapUpd {κ α : Type} [DecidableEq κ] (l : List (κ × α)) (k : κ) (v : α) :
    List (κ × α) :=
  l.map (fun p => if p.1 = k then (k, v) else p)

/-- The in-memory user store consulted by the use cases: primary map keyed by
identifier, secondary index keyed by (normalized) email, and the
auto-increment allocator — the shape of `MockUserRepository` in `repo.md`. -/
structure Store where
  users : List (Int × User)
  emails : List (GoStr × User)
  nextID : Int
deriving DecidableEq

/-- `MockUserRepository.Create` from `repo.md`: reject when the candidate's
email is already in the email index (exact key match — the candidate arrives
normalized from `NewUser`), otherwise assign the next identifier and insert
the record into both maps. -/
def storeCreate (st : Store) (u : User) : Except String (User × Store) :=
  match alookup st.emails u.Email with
  | some _ => .error ("email déjà utilisé")
  | none =>
    let u1 := { u with ID := st.nextID }
    .ok (u1, ⟨(u1.ID, u1) :: st.users, (u1.Email, u1) :: st.emails,
              st.nextID + 1⟩)

/-- Modelled from the spec: the `UserRepository.GetById` implementation for
`entities.User` is absent from src/ (only the interface declares it, and the
demonstration file implements it for a reduced record type); per spec §4.1
GetByID returns the stored record (as a fresh copy) or a NotFound error. -/
def storeGetById (st : Store) (id : Int) : Except String User :=
  match alookup st.users id with
  | none => .error ("user not found")
  | some u => .ok u

/-- Modelled from the spec: `UserRepository.GetByEmail` is absent from src/;
per spec §4.1 it resolves through the secondary index using the same
normalization applied at write time (case-insensitive comparison). -/
def storeGetByEmail (st : Store) (email : GoStr) : Except String User :=
  match alookup st.emails (goNormalize email) with
  | none => .error ("user not found")
  | some u => .ok u

/-- Modelled from the spec: the `isEmailTaken` store operation is absent from
src/ (the interface declares it unexported, with no implementation); per spec
§4.1 `ExistsByEmail` it is an index lookup under the write-time
normalization, with no error path. -/
def isEmailTaken (st : Store) (email : GoStr) : Bool :=
  (alookup st.emails (goNormalize email)).isSome

/-- Modelled from the spec: the `UserRepository.Update` implementation for
`entities.User` is absent from src/; per spec §4.1 Update fails NotFound when
the identifier is absent; if the mutation changes the email it re-checks
uniqueness against the index *excluding the record's own prior entry*,
failing DuplicateKey without committing any partial change when the new
email collides with a different record; otherwise it commits the
already-mutated record, keeping primary map and email index consistent in
one atomic step. -/
def storeUpdate (st : Store) (u : User) : Except String (User × Store) :=
  match alookup st.users u.ID with
  | none => .error ("user not found")
  | some old =>
    if u.Email ≠ old.Email ∧
        (alookup (removeKey st.emails old.Email) u.Email).isSome = true then
      .error ("email déjà utilisé")
    else
      .ok (u, ⟨mapUpd st.users u.ID u,
               (u.Email, u) :: removeKey st.emails old.Email, st.nextID⟩)

/-- Modelled from the spec: `UserRepository.Count` is absent from src/; per
spec §4.1 it is the number of live records. -/
def storeCount (st : Store) : Int := (st.users.length : Int)

/-- Insert a record into a list kept ascending by identifier. -/
def insertByID (u : User) : List User → List User
  | [] => [u]
  | v :: t => if u.ID ≤ v.ID then u :: v :: t else v :: insertByID u t

/-- Sort records ascending by identifier (insertion sort). -/
def sortByID : List User → List User
  | [] => []
  | u :: t => insertByID u (sortByID t)

/-- Modelled from the spec: `UserRepository.List` is absent from src/; per
spec §4.1 List returns at most `limit` records ordered by ascending
identifier, starting after `offset` records (empty when offset exceeds the
count). -/
def storeList (st : Store) (limit offset : Int) : List User :=
  (((sortByID (st.users.map (fun p => p.2))).drop offset.toNat).take limit.toNat)

/-- External password-hashing capability (`PasswordHasher.Hash`). -/
abbrev Hasher := GoStr → Except String GoStr

/-- External notification capability (`EmailSender.SendWelcomeEmail`):
`none` means success, `some e` an error. -/
abbrev Sender := GoStr → GoStr → Option String

/-- `CreateUserRequest` DTO from `user_usecases.go`. -/
structure CreateUserRequest where
  Email : GoStr
  Name : GoStr
  Password : GoStr
deriving DecidableEq

/-- `CreateUserResponse` DTO from `user_usecases.go` (no password field). -/
structure CreateUserResponse where
  ID : Int
  Email : GoStr
  Name : GoStr
  Created : Int
deriving DecidableEq

/-- `GetUserResponse` DTO from `user_usecases.go` (no password field). -/
structure GetUserResponse where
  ID : Int
  Email : GoStr
  Name : GoStr
  Created : Int
  Updated : Int
deriving DecidableEq

/-- `UpdateUserRequest` DTO from `user_usecases.go`. -/
structure UpdateUserRequest where
  ID : Int
  Email : GoStr
  Name : GoStr
deriving DecidableEq

/-- `UpdateUserResponse` DTO from `user_usecases.go` (no password field). -/
structure UpdateUserResponse where
  ID : Int
  Email : GoStr
  Name : GoStr
  Updated : Int
deriving DecidableEq

/-- `ListUsersRequest` DTO from `user_usecases.go`. -/
structure ListUsersRequest where
  Page : Int
  PageSize : Int
deriving DecidableEq

/-- `ListUsersResponse` DTO from `user_usecases.go`. -/
structure ListUsersResponse where
  Users : List GetUserResponse
  Total : Int
  Page : Int
  PageSize : Int
  TotalPages : Int
deriving DecidableEq

/-- `CreateUserUseCase.Execute` from `user_usecases.go`: check the email with
`isEmailTaken` (the spec-modelled store operation has no error path, so the
code's check-failure branch is dead), build the entity with `NewUser`, hash
the password, commit with the store's Create, then fire the welcome email
whose failure is only logged.  Returns the response-or-error, the resulting
store, and the log messages. -/
def CreateUserExecute (st : Store) (req : CreateUserRequest) (hash : Hasher)
    (send : Sender) (now : Int) :
    Except String CreateUserResponse × Store × List String :=
  let log0 := ["Creating new user"]
  if isEmailTaken st req.Email then
    (.error ("un utilisateur avec cet email existe déjà"), st, log0)
  else
    match NewUser req.Email req.Name req.Password now with
    | .error e => (.error e, st, log0 ++ ["Failed to create user entity"])
    | .ok user =>
      match hash user.Password with
      | .error _ =>
        (.error ("erreur lors du traitement du mot de passe"), st,
         log0 ++ ["Failed to hash password"])
      | .ok hp =>
        match storeCreate st { user with Password := hp } with
        | .error _ =>
          (.error ("erreur lors de la création de l'utilisateur"), st,
           log0 ++ ["Failed to save user"])
        | .ok (created, st1) =>
          let sendLog :=
            match send created.Email created.Name with
            | some _ => ["Failed to send welcome email"]
            | none => []
          (.ok ⟨created.ID, created.Email, created.Name, created.Created⟩,
           st1, log0 ++ ["User created successfully"] ++ sendLog)

/-- `GetUserUseCase.ExecuteByID` from `user_usecases.go`. -/
def GetUserExecuteByID (st : Store) (id : Int) : Except String GetUserResponse :=
  match storeGetById st id with
  | .error _ => .error ("utilisateur non trouvé")
  | .ok u => .ok ⟨u.ID, u.Email, u.Name, u.Created, u.Updated⟩

/-- `GetUserUseCase.ExecuteByEmail` from `user_usecases.go`. -/
def GetUserExecuteByEmail (st : Store) (email : GoStr) :
    Except String GetUserResponse :=
  match storeGetByEmail st email with
  | .error _ => .error ("utilisateur non trouvé")
  | .ok u => .ok ⟨u.ID, u.Email, u.Name, u.Created, u.Updated⟩

/-- `UpdateUserUseCase.Execute` from `user_usecases.go`: fetch by id; when the
requested email differs (byte-for-byte) from the stored one, pre-check
`isEmailTaken` and fail business-level if taken; otherwise apply the entity
mutation `UpdateUserProfile` and persist with the store's Update.  (The
Go code runs the existence check only inside the `!=` branch; the conflated
condition below is observationally identical because the store operations are
pure.) -/
def UpdateUserExecute (st : Store) (req : UpdateUserRequest) (now : Int) :
    Except String UpdateUserResponse × Store :=
  match storeGetById st req.ID with
  | .error _ => (.error ("utilisateur non trouvé"), st)
  | .ok user =>
    if user.Email ≠ req.Email ∧ isEmailTaken st req.Email = true then
      (.error ("cet email est déjà utilisé"), st)
    else
      match UpdateUserProfile user req.Name req.Email now with
      | (some e, _) => (.error e, st)
      | (none, u1) =>
        match storeUpdate st u1 with
        | .error _ => (.error ("erreur lors de la mise à jour"), st)
        | .ok (_, st1) => (.ok ⟨u1.ID, u1.Email, u1.Name, u1.Updated⟩, st1)

/-- `ListUsersUseCase.Execute` from `user_usecases.go`: default page 1 and
page size 10 when zero, offset `(page-1)*pageSize`, fetch the page and the
count, and compute `totalPages = (total + pageSize - 1) / pageSize` with
Go's truncated integer division. -/
def ListUsersExecute (st : Store) (req : ListUsersRequest) :
    Except String ListUsersResponse × Store :=
  let page := if req.Page = 0 then 1 else req.Page
  let ps := if req.PageSize = 0 then 10 else req.PageSize
  let off := (page - 1) * ps
  let us := storeList st ps off
  let total := storeCount st
  let dtos := us.map (fun u => (⟨u.ID, u.Email, u.Name, u.Created, u.Updated⟩ :
    GetUserResponse))
  (.ok ⟨dtos, total, page, ps, Int.tdiv (total + ps - 1) ps⟩, st)

/-- Store wellformedness: primary keys are the record identifiers, index keys
are the record emails, stored emails are fixed points of the write-time
normalization, and every live record's email is present in the index. -/
def WFStore (st : Store) : Prop :=
  (∀ p ∈ st.users, p.1 = p.2.ID) ∧
  (∀ p ∈ st.emails, p.1 = p.2.Email) ∧
  (∀ p ∈ st.users, goNormalize p.2.Email = p.2.Email) ∧
  (∀ p ∈ st.users, (alookup st.emails p.2.Email).isSome = true)

/-- Erase the credential field of a record. -/
def scrubUser (u : User) : User := { u with Password := [] }

/-- Erase the credential field of every record held by the store. -/
def scrubStore (st : Store) : Store :=
  ⟨st.users.map (fun p => (p.1, scrubUser p.2)),
   st.emails.map (fun p => (p.1, scrubUser p.2)), st.nextID⟩

/-! ### Heap embedding of the pointer-returning mock repository

The copy-isolation claims are about Go pointer aliasing, so the mock
repository of the demonstration file (and the `Create` of `repo.md`) is also
embedded with an explicit heap: an address is a `Nat`, and the store's maps
hold addresses of heap cells. -/

/-- A heap: allocated cells and the next fresh address. -/
structure HHeap where
  cells : List (Nat × User)
  next : Nat
deriving DecidableEq

/-- Dereference a pointer. -/
def hread (h : HHeap) (a : Nat) : Option User := alookup h.cells a

/-- Assign through a pointer (`*p = v`). -/
def hwrite (h : HHeap) (a : Nat) (v : User) : HHeap :=
  ⟨h.cells.map (fun p => if p.1 = a then (a, v) else p), h.next⟩

/-- Allocate a fresh cell holding a copy of `v` (`u := v; &u`). -/
def halloc (h : HHeap) (v : User) : Nat × HHeap :=
  (h.next, ⟨(h.next, v) :: h.cells, h.next + 1⟩)

/-- The mock repository state: maps from identifier and from email to the
*address* of the stored record, plus the identifier allocator. -/
structure MockState where
  users : List (Int × Nat)
  emails : List (GoStr × Nat)
  nextID : Int
deriving DecidableEq

/-- `MockUserRepository.GetByID` from the demonstration file: look up the
stored pointer, fail when absent, otherwise return a pointer to a freshly
allocated copy (`userCopy := *user; return &userCopy`).  (The demonstration
file uses a reduced record type; the structure of the function is
identical.) -/
def mockGetByID (h : HHeap) (st : MockState) (id : Int) :
    Except String (Nat × HHeap) :=
  match alookup st.users id with
  | none => .error ("user not found")
  | some a =>
    match hread h a with
    | none => .error ("user not found")
    | some u => let (b, h1) := halloc h u; .ok (b, h1)

/-- Walk the primary map, allocating a copy of each stored record
(`userCopy := *user; result = append(result, &userCopy)`). -/
def mockListGo : List (Int × Nat) → HHeap → List Nat × HHeap
  | [], h => ([], h)
  | (_, a) :: t, h =>
    match hread h a with
    | none => mockListGo t h
    | some u =>
      let (b, h1) := halloc h u
      let (bs, h2) := mockListGo t h1
      (b :: bs, h2)

/-- `MockUserRepository.List` from the demonstration file: a slice of
pointers to fresh copies of the stored records. -/
def mockList (h : HHeap) (st : MockState) : List Nat × HHeap :=
  mockListGo st.users h

/-- `MockUserRepository.Create` from `repo.md` (heap embedding): reject a
duplicate email; otherwise write the allocated identifier through the
caller's pointer (`user.ID = m.nextID`), copy the record into a fresh cell
(`userCopy := *user`), insert that cell's address into both maps, and return
that same address (`return &userCopy, nil`). -/
def mockCreate (h : HHeap) (st : MockState) (p : Nat) :
    Except String (Nat × HHeap × MockState) :=
  match hread h p with
  | none => .error ("nil pointer")
  | some u =>
    match alookup st.emails u.Email with
    | some _ => .error ("email déjà utilisé")
    | none =>
      let u1 := { u with ID := st.nextID }
      let h1 := hwrite h p u1
      let (a, h2) := halloc h1 u1
      .ok (a, h2, ⟨(u1.ID, a) :: st.users, (u1.Email, a) :: st.emails,
                   st.nextID + 1⟩)

/-- The record value a subsequent `GetByID(id)` would hand out: the content
of the store-internal cell for `id`. -/
def mockGetVal (h : HHeap) (st : MockState) (id : Int) : Option User :=
  (alookup st.users id).bind (hread h)

/-- Mock-state wellformedness: every stored address has been allocated. -/
def WFMock (h : HHeap) (st : MockState) : Prop :=
  ∀ p ∈ st.users, p.2 < h.next

instance WFMockDec (h : HHeap) (st : MockState) : Decidable (WFMock h st) := by
  unfold WFMock; infer_instance

/-! ### Claim-side predicates (transcribed from the claims, for comparison
with the source-derived definitions) -/

/-- `w` occurs contiguously inside `s` (the claim's "contains a substring"). -/
def OccursIn (w s : GoStr) : Prop := ∃ l r, l ++ w ++ r = s

/-- Claim C9's email condition: trimmed email non-empty, contains `@`, at
most 255 bytes. -/
def claimEmailOk (e : GoStr) : Prop :=
  goTrimSpace e ≠ [] ∧ 64 ∈ goTrimSpace e ∧ goLen (goTrimSpace e) ≤ 255

/-- Claim C9's name condition over a given character class: trimmed name
between 2 and 100 bytes, no case-insensitive occurrence of an offensive
word, and every character in the class. -/
def claimNameBase (charOk : Nat → Prop) (n : GoStr) : Prop :=
  2 ≤ goLen (goTrimSpace n) ∧ goLen (goTrimSpace n) ≤ 100 ∧
  (∀ w ∈ offensiveWords, ¬ OccursIn w (goToLower (goTrimSpace n))) ∧
  (∀ c ∈ goTrimSpace n, charOk c)

/-- Claim C9's character class as written: Latin letters (with the `À`-`ÿ`
range), whitespace — read as the ASCII whitespace characters, including
vertical tab U+000B — hyphen, apostrophe, period. -/
def claimNameChar (n : Nat) : Prop :=
  (97 ≤ n ∧ n ≤ 122) ∨ (65 ≤ n ∧ n ≤ 90) ∨ (192 ≤ n ∧ n ≤ 255) ∨
  n = 9 ∨ n = 10 ∨ n = 11 ∨ n = 12 ∨ n = 13 ∨ n = 32 ∨ n = 45 ∨ n = 39 ∨ n = 46

/-- The amended character class: exactly RE2's `\s` (tab, LF, FF, CR,
space) — vertical tab excluded — besides the letters and punctuation. -/
def amendedNameChar (n : Nat) : Prop :=
  (97 ≤ n ∧ n ≤ 122) ∨ (65 ≤ n ∧ n ≤ 90) ∨ (192 ≤ n ∧ n ≤ 255) ∨
  n = 9 ∨ n = 10 ∨ n = 12 ∨ n = 13 ∨ n = 32 ∨ n = 45 ∨ n = 39 ∨ n = 46

instance claimNameCharDec (n : Nat) : Decidable (claimNameChar n) := by
  unfold claimNameChar; infer_instance

instance amendedNameCharDec (n : Nat) : Decidable (amendedNameChar n) := by
  unfold amendedNameChar; infer_instance

/-- Claim C9's password condition: non-empty, 6 to 128 bytes inclusive. -/
def claimPassOk (p : GoStr) : Prop := p ≠ [] ∧ 6 ≤ goLen p ∧ goLen p ≤ 128

/-- Claim C9's acceptance condition, as written. -/
def claimAccepts (e n p : GoStr) : Prop :=
  claimEmailOk e ∧ claimNameBase claimNameChar n ∧ claimPassOk p

/-- Claim C9's acceptance condition amended: whitespace in the name class is
exactly RE2's `\s`. -/
def amendedAccepts (e n p : GoStr) : Prop :=
  claimEmailOk e ∧ claimNameBase amendedNameChar n ∧ claimPassOk p

/-! ### Concrete inputs for witnesses and counterexamples -/

/-- A stored record with identifier 1. -/
def annUser : User := ⟨1, gs ("a@x.com"), gs ("Ann"), gs ("hp111"), 0, 0⟩

/-- A stored record with identifier 2. -/
def bobUser : User := ⟨2, gs ("b@x.com"), gs ("Bob"), gs ("hp222"), 0, 0⟩

/-- A wellformed two-record store. -/
def twoUserStore : Store :=
  ⟨[(1, annUser), (2, bobUser)],
   [(gs ("a@x.com"), annUser), (gs ("b@x.com"), bobUser)], 3⟩

/-- A hasher that succeeds with the identity digest. -/
def hashId : Hasher := fun s => .ok s

/-- A notification capability that always succeeds. -/
def sendOk : Sender := fun _ _ => none

/-- A notification capability that always fails. -/
def sendFail : Sender := fun _ _ => some ("smtp down")

/-- The candidate record sitting at address 0 before the mock `Create`. -/
def aliceVal : User := ⟨0, gs ("al@x.com"), gs ("Alice"), gs ("hp333"), 0, 0⟩

/-- Heap holding only the candidate, at address 0. -/
def c1heap0 : HHeap := ⟨[(0, aliceVal)], 1⟩

/-- Empty mock store. -/
def c1st0 : MockState := ⟨[], [], 1⟩

/-- The record as stored by the mock `Create` (identifier 1 assigned). -/
def c1u1 : User := ⟨1, gs ("al@x.com"), gs ("Alice"), gs ("hp333"), 0, 0⟩

/-- The heap after the mock `Create`: the copy lives at address 1. -/
def c1heap2 : HHeap := ⟨[(1, c1u1), (0, c1u1)], 2⟩

/-- The mock store after the mock `Create`: both maps hold address 1 — the
very address `Create` returned. -/
def c1st1 : MockState := ⟨[(1, 1)], [(gs ("al@x.com"), 1)], 2⟩

/-- The stored record after the caller mutates it through `Create`'s
returned pointer. -/
def c1mut : User := ⟨1, gs ("al@x.com"), gs ("MODIFIED"), gs ("hp333"), 0, 0⟩

/-- The heap after a `GetByID(1)` on `c1heap2`: the fresh copy at address 2. -/
def c1heap3 : HHeap := ⟨[(2, c1u1), (1, c1u1), (0, c1u1)], 3⟩

/-! ### Bridge lemmas between the executable definitions and the claim-side
predicates -/

theorem leadsWith_iff (w : GoStr) : ∀ s, leadsWith w s = true ↔ ∃ r, w ++ r = s := by
  induction w with
  | nil => intro s; simp [leadsWith]
  | cons a as ih =>
    intro s
    cases s with
    | nil => simp [leadsWith]
    | cons b bs =>
      simp only [leadsWith, Bool.and_eq_true, beq_iff_eq, ih, List.cons_append,
        List.cons.injEq]
      constructor
      · rintro ⟨hab, r, hr⟩; exact ⟨r, hab, hr⟩
      · rintro ⟨r, hab, hr⟩; exact ⟨hab, r, hr⟩

theorem occursIn_iff (w : GoStr) : ∀ s, occursIn w s = true ↔ OccursIn w s := by
  intro s
  induction s with
  | nil =>
    simp only [occursIn, leadsWith_iff, OccursIn]
    constructor
    · rintro ⟨r, hr⟩; exact ⟨[], r, by simpa using hr⟩
    · rintro ⟨l, r, hr⟩
      rcases List.append_eq_nil.mp hr with ⟨h1, h2⟩
      rcases List.append_eq_nil.mp h1 with ⟨h3, h4⟩
      exact ⟨r, by simp [h4, h2]⟩
  | cons c t ih =>
    simp only [occursIn, Bool.or_eq_true, leadsWith_iff, ih, OccursIn]
    constructor
    · rintro (⟨r, hr⟩ | ⟨l, r, hr⟩)
      · exact ⟨[], r, by simpa using hr⟩
      · exact ⟨c :: l, r, by simp only [List.cons_append]; rw [hr]⟩
    · rintro ⟨l, r, hr⟩
      cases l with
      | nil => exact Or.inl ⟨r, by simpa using hr⟩
      | cons x l' =>
        right
        simp only [List.cons_append] at hr
        injection hr with h1 h2
        exact ⟨l', r, h2⟩

theorem offensiveMatch_false_iff (t : GoStr) :
    offensiveMatch t = false ↔ ∀ w ∈ offensiveWords, ¬ OccursIn w (goToLower t) := by
  unfold offensiveMatch
  rw [← Bool.not_eq_true, List.any_eq_true]
  simp only [occursIn_iff]
  push_neg
  rfl

theorem validNameChar_iff (n : Nat) : validNameChar n = true ↔ amendedNameChar n := by
  simp [validNameChar, amendedNameChar]

theorem validateEmail_none_iff (e : GoStr) :
    validateEmail e = none ↔ claimEmailOk e := by
  unfold validateEmail claimEmailOk
  by_cases h1 : goTrimSpace e = []
  · simp [h1]
  · by_cases h2 : (64 : Nat) ∈ goTrimSpace e
    · by_cases h3 : goLen (goTrimSpace e) > 255
      · simp only [h1, h2, h3, if_true, if_false, not_true, not_false_iff, if_neg,
          if_pos, ne_eq]
        constructor
        · intro h; exact absurd h (by simp [h1, h2, h3])
        · rintro ⟨-, -, hlen⟩; omega
      · simp only [ne_eq]
        rw [if_neg h1, if_neg (by simpa using h2), if_neg h3]
        exact iff_of_true rfl ⟨h1, h2, by omega⟩
    · rw [if_neg h1, if_pos (by simpa using h2)]
      constructor
      · intro h; exact absurd h (by simp)
      · rintro ⟨-, hmem, -⟩; exact absurd hmem h2

theorem validatePassword_none_iff (p : GoStr) :
    validatePassword p = none ↔ claimPassOk p := by
  unfold validatePassword claimPassOk
  by_cases h1 : p = []
  · simp [h1, goLen]
  · by_cases h2 : goLen p < 6
    · rw [if_neg h1, if_pos h2]
      constructor
      · intro h; exact absurd h (by simp)
      · rintro ⟨-, hlen, -⟩; omega
    · by_cases h3 : goLen p > 128
      · rw [if_neg h1, if_neg h2, if_pos h3]
        constructor
        · intro h; exact absurd h (by simp)
        · rintro ⟨-, -, hlen⟩; omega
      · rw [if_neg h1, if_neg h2, if_neg h3]
        exact iff_of_true rfl ⟨h1, by omega, by omega⟩

theorem validateName_none_iff (n : GoStr) :
    validateName n = none ↔ claimNameBase amendedNameChar n := by
  unfold validateName claimNameBase
  by_cases h1 : goTrimSpace n = []
  · rw [if_pos h1]
    constructor
    · intro h; exact absurd h (by simp)
    · rintro ⟨hlen, -⟩; rw [h1] at hlen; simp [goLen] at hlen
  · by_cases h2 : goLen (goTrimSpace n) < 2
    · rw [if_neg h1, if_pos h2]
      constructor
      · intro h; exact absurd h (by simp)
      · rintro ⟨hlen, -⟩; omega
    · by_cases h3 : goLen (goTrimSpace n) > 100
      · rw [if_neg h1, if_neg h2, if_pos h3]
        constructor
        · intro h; exact absurd h (by simp)
        · rintro ⟨-, hlen, -⟩; omega
      · by_cases h4 : offensiveMatch (goTrimSpace n) = true
        · rw [if_neg h1, if_neg h2, if_neg h3, if_pos h4]
          constructor
          · intro h; exact absurd h (by simp)
          · rintro ⟨-, -, hoff, -⟩
            exact absurd ((offensiveMatch_false_iff _).mpr hoff) (by simp [h4])
        · by_cases h5 : (goTrimSpace n).all validNameChar = true
          · rw [if_neg h1, if_neg h2, if_neg h3, if_neg h4, if_neg (by simpa using h5)]
            refine iff_of_true rfl ⟨by omega, by omega, ?_, ?_⟩
            · exact (offensiveMatch_false_iff _).mp (by simpa using h4)
            · intro c hc
              exact (validNameChar_iff c).mp (List.all_eq_true.mp h5 c hc)
          · rw [if_neg h1, if_neg h2, if_neg h3, if_neg h4, if_pos (by simpa using h5)]
            constructor
            · intro h; exact absurd h (by simp)
            · rintro ⟨-, -, -, hchar⟩
              refine absurd ?_ h5
              rw [List.all_eq_true]
              intro c hc
              exact (validNameChar_iff c).mpr (hchar c hc)

theorem newUser_ok_iff (e n p : GoStr) (now : Int) :
    (NewUser e n p now).isOk = true ↔
      (validateEmail e = none ∧ validateName n = none ∧ validatePassword p = none) := by
  unfold NewUser
  cases he : validateEmail e
  · cases hn : validateName n
    · cases hp : validatePassword p
      · simp [Except.isOk, Except.toBool]
      · simp [Except.isOk, Except.toBool]
    · simp [Except.isOk, Except.toBool]
  · simp [Except.isOk, Except.toBool]

theorem newUser_ok_fields (e n p : GoStr) (now : Int) (u : User)
    (h : NewUser e n p now = .ok u) :
    u = ⟨0, goToLower (goTrimSpace e), goTrimSpace n, p, now, now⟩ := by
  unfold NewUser at h
  cases he : validateEmail e <;> rw [he] at h
  · cases hn : validateName n <;> rw [hn] at h
    · cases hp : validatePassword p <;> rw [hp] at h
      · exact (Except.ok.inj h).symm
      · exact absurd h (by simp)
    · exact absurd h (by simp)
  · exact absurd h (by simp)

/-! ### Claim C10 -/

/-- Claim C10: whenever `UpdateUserProfile` or `ChangePassword` returns an
error, the receiver is left completely unchanged — all validation happens
before any assignment. -/
theorem entity_mutators_atomic :
    (∀ u nm em now e, (UpdateUserProfile u nm em now).1 = some e →
      (UpdateUserProfile u nm em now).2 = u) ∧
    (∀ u pw now e, (ChangePassword u pw now).1 = some e →
      (ChangePassword u pw now).2 = u) := by
  constructor
  · intro u nm em now e h
    unfold UpdateUserProfile at h ⊢
    cases hn : validateName nm with
    | some e1 => simp [hn]
    | none =>
      cases he : validateEmail em with
      | some e1 => simp [hn, he]
      | none => rw [hn, he] at h; exact absurd h (by simp)
  · intro u pw now e h
    unfold ChangePassword at h ⊢
    cases hp : validatePassword pw with
    | some e1 => simp [hp]
    | none => rw [hp] at h; exact absurd h (by simp)

/-- Witness for C10 at concrete failing inputs (too-short name, too-short
password). -/
theorem entity_mutators_atomic_witness :
    (UpdateUserProfile annUser (gs ("x")) (gs ("a@x.com")) 9).2 = annUser ∧
    (ChangePassword annUser (gs ("abc")) 9).2 = annUser :=
  ⟨entity_mutators_atomic.1 annUser (gs ("x")) (gs ("a@x.com")) 9
      ("brother nobody has such a short name") (by decide),
   entity_mutators_atomic.2 annUser (gs ("abc")) 9
      ("mot de passe trop court (min 6 caractères)") (by decide)⟩

/-! ### Claim C8 -/

/-- Claim C8: whenever `NewUser` accepts its inputs, the returned record has
the lowercased trimmed email, the trimmed name, and the password verbatim. -/
theorem newUser_normalizes_fields :
    ∀ e n p now u, NewUser e n p now = .ok u →
      u.Email = goToLower (goTrimSpace e) ∧ u.Name = goTrimSpace n ∧
      u.Password = p := by
  intro e n p now u h
  rw [newUser_ok_fields e n p now u h]
  exact ⟨rfl, rfl, rfl⟩

/-- Witness for C8 at a concrete accepted input with mixed case and
surrounding spaces. -/
theorem newUser_normalizes_fields_witness :
    (⟨0, gs ("a@x.com"), gs ("Ann"), gs ("secret1"), 5, 5⟩ : User).Email =
        goToLower (goTrimSpace (gs (" A@X.com "))) ∧
      (⟨0, gs ("a@x.com"), gs ("Ann"), gs ("secret1"), 5, 5⟩ : User).Name =
        goTrimSpace (gs (" Ann ")) ∧
      (⟨0, gs ("a@x.com"), gs ("Ann"), gs ("secret1"), 5, 5⟩ : User).Password =
        gs ("secret1") :=
  newUser_normalizes_fields (gs (" A@X.com ")) (gs (" Ann ")) (gs ("secret1")) 5
    ⟨0, gs ("a@x.com"), gs ("Ann"), gs ("secret1"), 5, 5⟩ (by decide)

/-! ### Claim C3 -/

/-- Claim C3: `NewUser` establishes `Updated = Created` (both the
construction time); under a monotone clock (`u.Updated ≤ now`), each entity
mutation never lowers `Updated`, refreshes it to `now` on success, never
alters `Created`, and preserves the invariant `Created ≤ Updated`. -/
theorem user_timestamps_invariant :
    (∀ e n p now u, NewUser e n p now = .ok u →
      u.Created = now ∧ u.Updated = u.Created) ∧
    (∀ u nm em now, u.Updated ≤ now →
      (UpdateUserProfile u nm em now).2.Created = u.Created ∧
      u.Updated ≤ (UpdateUserProfile u nm em now).2.Updated ∧
      ((UpdateUserProfile u nm em now).1 = none →
        (UpdateUserProfile u nm em now).2.Updated = now) ∧
      (u.Created ≤ u.Updated →
        (UpdateUserProfile u nm em now).2.Created ≤
          (UpdateUserProfile u nm em now).2.Updated)) ∧
    (∀ u pw now, u.Updated ≤ now →
      (ChangePassword u pw now).2.Created = u.Created ∧
      u.Updated ≤ (ChangePassword u pw now).2.Updated ∧
      ((ChangePassword u pw now).1 = none →
        (ChangePassword u pw now).2.Updated = now) ∧
      (u.Created ≤ u.Updated →
        (ChangePassword u pw now).2.Created ≤ (ChangePassword u pw now).2.Updated)) := by
  refine ⟨?_, ?_, ?_⟩
  · intro e n p now u h
    rw [newUser_ok_fields e n p now u h]
    exact ⟨rfl, rfl⟩
  · intro u nm em now hmono
    unfold UpdateUserProfile
    cases hn : validateName nm with
    | some e1 => exact ⟨rfl, le_refl _, by simp, fun h => h⟩
    | none =>
      cases he : validateEmail em with
      | some e1 => exact ⟨rfl, le_refl _, by simp, fun h => h⟩
      | none => exact ⟨rfl, hmono, fun _ => rfl, fun h => le_trans h hmono⟩
  · intro u pw now hmono
    unfold ChangePassword
    cases hp : validatePassword pw with
    | some e1 => exact ⟨rfl, le_refl _, by simp, fun h => h⟩
    | none => exact ⟨rfl, hmono, fun _ => rfl, fun h => le_trans h hmono⟩

/-- Witness for C3: a concrete construction and concrete mutations of
`annUser` at a later clock reading. -/
theorem user_timestamps_invariant_witness :
    ((⟨0, gs ("a@x.com"), gs ("Ann"), gs ("secret1"), 5, 5⟩ : User).Created = 5 ∧
      (⟨0, gs ("a@x.com"), gs ("Ann"), gs ("secret1"), 5, 5⟩ : User).Updated =
        (⟨0, gs ("a@x.com"), gs ("Ann"), gs ("secret1"), 5, 5⟩ : User).Created) ∧
    ((UpdateUserProfile annUser (gs ("Anne")) (gs ("a@x.com")) 9).2.Created =
        annUser.Created ∧
      annUser.Updated ≤ (UpdateUserProfile annUser (gs ("Anne")) (gs ("a@x.com")) 9).2.Updated ∧
      ((UpdateUserProfile annUser (gs ("Anne")) (gs ("a@x.com")) 9).1 = none →
        (UpdateUserProfile annUser (gs ("Anne")) (gs ("a@x.com")) 9).2.Updated = 9) ∧
      (annUser.Created ≤ annUser.Updated →
        (UpdateUserProfile annUser (gs ("Anne")) (gs ("a@x.com")) 9).2.Created ≤
          (UpdateUserProfile annUser (gs ("Anne")) (gs ("a@x.com")) 9).2.Updated)) ∧
    ((ChangePassword annUser (gs ("secret2")) 9).2.Created = annUser.Created ∧
      annUser.Updated ≤ (ChangePassword annUser (gs ("secret2")) 9).2.Updated ∧
      ((ChangePassword annUser (gs ("secret2")) 9).1 = none →
        (ChangePassword annUser (gs ("secret2")) 9).2.Updated = 9) ∧
      (annUser.Created ≤ annUser.Updated →
        (ChangePassword annUser (gs ("secret2")) 9).2.Created ≤
          (ChangePassword annUser (gs ("secret2")) 9).2.Updated)) :=
  ⟨user_timestamps_invariant.1 (gs ("a@x.com")) (gs ("Ann")) (gs ("secret1")) 5
      ⟨0, gs ("a@x.com"), gs ("Ann"), gs ("secret1"), 5, 5⟩ (by decide),
   user_timestamps_invariant.2.1 annUser (gs ("Anne")) (gs ("a@x.com")) 9 (by decide),
   user_timestamps_invariant.2.2 annUser (gs ("secret2")) 9 (by decide)⟩

/-! ### Claim C9 -/

/-- Counterexample for C9 as stated: the name `"a\x0Bb"` (letter, vertical
tab, letter) satisfies every condition of the claim — trimmed length between
2 and 100 bytes, no offensive substring, characters drawn from letters,
whitespace, and the allowed punctuation — yet `NewUser` rejects it, because
the regex class `\s` of RE2 does not contain the vertical tab. -/
theorem newUser_rejects_vertical_tab_name :
    NewUser (gs ("a@b.c")) [97, 11, 98] (gs ("secret1")) 0 =
      .error ("nom contient des caractères invalides") ∧
    claimAccepts (gs ("a@b.c")) [97, 11, 98] (gs ("secret1")) := by
  refine ⟨by decide, ⟨by decide, by decide, by decide⟩, ⟨by decide, by decide, ?_, by decide⟩,
    ⟨by decide, by decide, by decide⟩⟩
  rw [← offensiveMatch_false_iff]
  decide

/-! ### Association-list and normalization helper lemmas -/

theorem alookup_mem {κ α : Type} [DecidableEq κ] {l : List (κ × α)} {k : κ} {v : α}
    (h : alookup l k = some v) : (k, v) ∈ l := by
  induction l with
  | nil => exact absurd h (by simp [alookup])
  | cons p t ih =>
    obtain ⟨k', v'⟩ := p
    unfold alookup at h
    by_cases hk : k' = k
    · rw [if_pos hk] at h
      injection h with h2
      subst hk; subst h2
      exact List.mem_cons_self _ _
    · rw [if_neg hk] at h
      exact List.mem_cons_of_mem _ (ih h)

theorem alookup_mapVal {κ α β : Type} [DecidableEq κ] (f : α → β)
    (l : List (κ × α)) (k : κ) :
    alookup (l.map (fun p => (p.1, f p.2))) k = (alookup l k).map f := by
  induction l with
  | nil => rfl
  | cons p t ih =>
    obtain ⟨k', v'⟩ := p
    by_cases hk : k' = k
    · simp [alookup, hk]
    · simp [alookup, hk, ih]

theorem goIsSpace_toLowerChar (n : Nat) :
    goIsSpace (goToLowerChar n) = goIsSpace n := by
  unfold goToLowerChar
  split_ifs with h1 h2
  · simp only [goIsSpace, decide_eq_decide]; omega
  · simp only [goIsSpace, decide_eq_decide]; omega
  · rfl

theorem dropWhile_map {f : Nat → Nat} {p : Nat → Bool}
    (hp : ∀ c, p (f c) = p c) :
    ∀ s : List Nat, (s.map f).dropWhile p = (s.dropWhile p).map f := by
  intro s; induction s with
  | nil => rfl
  | cons c t ih =>
    simp only [List.map_cons, List.dropWhile_cons, hp c]
    by_cases h : p c = true
    · simp [h, ih]
    · simp [h]

theorem goTrimSpace_goToLower (s : GoStr) :
    goTrimSpace (goToLower s) = goToLower (goTrimSpace s) := by
  unfold goTrimSpace goToLower
  rw [dropWhile_map goIsSpace_toLowerChar, ← List.map_reverse,
    dropWhile_map goIsSpace_toLowerChar, ← List.map_reverse]

theorem goNormalize_of_lower_eq {a b : GoStr} (h : goToLower a = goToLower b)
    (hb : goNormalize b = b) : goNormalize a = b := by
  unfold goNormalize at *
  calc goToLower (goTrimSpace a)
      = goTrimSpace (goToLower a) := (goTrimSpace_goToLower a).symm
    _ = goTrimSpace (goToLower b) := by rw [h]
    _ = goToLower (goTrimSpace b) := goTrimSpace_goToLower b
    _ = b := hb

/-! ### Claim C2 -/

/-- Claim C2: when the store already holds a live record whose email equals
the candidate's email case-insensitively, `CreateUserUseCase.Execute` fails
with the business-level already-exists error and the store — hence its
Count — is unchanged. -/
theorem create_duplicate_email_rejected :
    ∀ st req hash send now, WFStore st →
      (∃ p ∈ st.users, goToLower (p.2).Email = goToLower req.Email) →
      (CreateUserExecute st req hash send now).1 =
          .error ("un utilisateur avec cet email existe déjà") ∧
        (CreateUserExecute st req hash send now).2.1 = st ∧
        storeCount (CreateUserExecute st req hash send now).2.1 = storeCount st := by
  intro st req hash send now hwf hex
  obtain ⟨p, hmem, hlow⟩ := hex
  have hnorm : goNormalize req.Email = (p.2).Email :=
    goNormalize_of_lower_eq hlow.symm (hwf.2.2.1 p hmem)
  have htaken : isEmailTaken st req.Email = true := by
    unfold isEmailTaken
    rw [hnorm]
    exact hwf.2.2.2 p hmem
  unfold CreateUserExecute
  rw [if_pos htaken]
  exact ⟨rfl, rfl, rfl⟩

/-- Witness for C2: a concrete store holding `a@x.com` rejects a create
request for `A@X.com`. -/
theorem create_duplicate_email_rejected_witness :
    (CreateUserExecute twoUserStore ⟨gs ("A@X.com"), gs ("Zed"), gs ("secret9")⟩
        hashId sendOk 7).1 =
      .error ("un utilisateur avec cet email existe déjà") ∧
    (CreateUserExecute twoUserStore ⟨gs ("A@X.com"), gs ("Zed"), gs ("secret9")⟩
        hashId sendOk 7).2.1 = twoUserStore ∧
    storeCount (CreateUserExecute twoUserStore
        ⟨gs ("A@X.com"), gs ("Zed"), gs ("secret9")⟩ hashId sendOk 7).2.1 =
      storeCount twoUserStore :=
  create_duplicate_email_rejected twoUserStore
    ⟨gs ("A@X.com"), gs ("Zed"), gs ("secret9")⟩ hashId sendOk 7
    (by refine ⟨by decide, by decide, by decide, by decide⟩)
    ⟨(1, annUser), by decide, by decide⟩

theorem validateName_error_ne (n : GoStr) (e : String)
    (h : validateName n = some e) : e ≠ "cet email est déjà utilisé" := by
  unfold validateName at h
  split_ifs at h
  all_goals first
    | exact Option.noConfusion h
    | (injection h with h2; subst h2; decide)

theorem validateEmail_error_ne (em : GoStr) (e : String)
    (h : validateEmail em = some e) : e ≠ "cet email est déjà utilisé" := by
  unfold validateEmail at h
  split_ifs at h
  all_goals first
    | exact Option.noConfusion h
    | (injection h with h2; subst h2; decide)

/-! ### Claim C4 -/

/-- Claim C4 as amended: for an update of a record found by id, the
email-existence pre-check fires exactly when the requested email differs
byte-for-byte from the stored one — if the (case-insensitively normalizing)
store reports the new email taken, the scenario fails business-level with
the store untouched; when the requested email equals the stored one the
pre-check is skipped and the update proceeds (never failing with the
taken-error, although the requester's own email is in the index).  The
original claim's final sentence is false: a request differing only in
letter case takes the first branch and is rejected (see the
counterexample). -/
theorem update_email_precheck :
    ∀ st req now, WFStore st → ∀ u, alookup st.users req.ID = some u →
      ((u.Email ≠ req.Email → isEmailTaken st req.Email = true →
        UpdateUserExecute st req now = (.error ("cet email est déjà utilisé"), st)) ∧
       (u.Email = req.Email →
        isEmailTaken st req.Email = true ∧
        (validateName req.Name = none → validateEmail req.Email = none →
          (UpdateUserExecute st req now).1 =
            .ok ⟨u.ID, goNormalize req.Email, goTrimSpace req.Name, now⟩) ∧
        (UpdateUserExecute st req now).1 ≠ .error ("cet email est déjà utilisé"))) := by
  intro st req now hwf u hu
  have hget : storeGetById st req.ID = .ok u := by unfold storeGetById; rw [hu]
  have hmem := alookup_mem hu
  have hid : req.ID = u.ID := hwf.1 (req.ID, u) hmem
  constructor
  · intro hne htaken
    simp only [UpdateUserExecute, hget]
    rw [if_pos ⟨hne, htaken⟩]
  · intro heq
    have hnorm : goNormalize req.Email = u.Email := by
      rw [← heq]
      exact hwf.2.2.1 (req.ID, u) hmem
    have htaken : isEmailTaken st req.Email = true := by
      unfold isEmailTaken
      rw [hnorm]
      exact hwf.2.2.2 (req.ID, u) hmem
    have hcond : ¬(u.Email ≠ req.Email ∧ isEmailTaken st req.Email = true) :=
      fun c => c.1 heq
    have hlook : alookup st.users u.ID = some u := by rw [← hid]; exact hu
    have hskip : ¬(goToLower (goTrimSpace req.Email) ≠ u.Email ∧
        (alookup (removeKey st.emails u.Email)
          (goToLower (goTrimSpace req.Email))).isSome = true) :=
      fun c => c.1 hnorm
    refine ⟨htaken, ?_, ?_⟩
    · intro hvn hve
      simp only [UpdateUserExecute, hget]
      rw [if_neg hcond]
      simp only [UpdateUserProfile, hvn, hve, storeUpdate]
      simp only [hlook]
      rw [if_neg hskip]
      rfl
    · intro hbad
      cases hvn : validateName req.Name with
      | some e1 =>
        have hres : (UpdateUserExecute st req now).1 = .error e1 := by
          simp only [UpdateUserExecute, hget]
          rw [if_neg hcond]
          simp only [UpdateUserProfile, hvn]
        rw [hres] at hbad
        exact validateName_error_ne req.Name e1 hvn (Except.error.inj hbad)
      | none =>
        cases hve : validateEmail req.Email with
        | some e1 =>
          have hres : (UpdateUserExecute st req now).1 = .error e1 := by
            simp only [UpdateUserExecute, hget]
            rw [if_neg hcond]
            simp only [UpdateUserProfile, hvn, hve]
          rw [hres] at hbad
          exact validateEmail_error_ne req.Email e1 hve (Except.error.inj hbad)
        | none =>
          have hres : (UpdateUserExecute st req now).1 =
              .ok ⟨u.ID, goNormalize req.Email, goTrimSpace req.Name, now⟩ := by
            simp only [UpdateUserExecute, hget]
            rw [if_neg hcond]
            simp only [UpdateUserProfile, hvn, hve, storeUpdate]
            simp only [hlook]
            rw [if_neg hskip]
            rfl
          rw [hres] at hbad
          exact Except.noConfusion hbad

/-- Counterexample for C4's final sentence: the stored email is `a@x.com`;
a request carrying `A@x.com` — the same email up to letter case — is
rejected as taken (by the requester's own record), because the skip
condition compares byte-for-byte while the store normalizes. -/
theorem update_case_only_email_rejected :
    goToLower (gs ("A@x.com")) = goToLower annUser.Email ∧
    alookup twoUserStore.users 1 = some annUser ∧
    (UpdateUserExecute twoUserStore ⟨1, gs ("A@x.com"), gs ("Ann")⟩ 9).1 =
      .error ("cet email est déjà utilisé") :=
  ⟨by decide, by decide, by decide⟩

/-- Witness for C4: `Ann` requesting `Bob`'s email is rejected with the
store untouched; `Bob` re-submitting his own email is not rejected as taken
and the update proceeds. -/
theorem update_email_precheck_witness :
    UpdateUserExecute twoUserStore ⟨1, gs ("b@x.com"), gs ("Ann")⟩ 9 =
      (.error ("cet email est déjà utilisé"), twoUserStore) ∧
    (isEmailTaken twoUserStore (gs ("b@x.com")) = true ∧
     (UpdateUserExecute twoUserStore ⟨2, gs ("b@x.com"), gs ("Bobby")⟩ 9).1 =
       .ok ⟨bobUser.ID, goNormalize (gs ("b@x.com")), goTrimSpace (gs ("Bobby")), 9⟩ ∧
     (UpdateUserExecute twoUserStore ⟨2, gs ("b@x.com"), gs ("Bobby")⟩ 9).1 ≠
       .error ("cet email est déjà utilisé")) :=
  ⟨(update_email_precheck twoUserStore ⟨1, gs ("b@x.com"), gs ("Ann")⟩ 9
      ⟨by decide, by decide, by decide, by decide⟩ annUser (by decide)).1
      (by decide) (by decide),
   (fun h => ⟨h.1, h.2.1 (by decide) (by decide), h.2.2⟩)
     ((update_email_precheck twoUserStore ⟨2, gs ("b@x.com"), gs ("Bobby")⟩ 9
        ⟨by decide, by decide, by decide, by decide⟩ bobUser (by decide)).2
        (by decide))⟩

/-! ### Claim C5 -/

theorem tdiv_ceil (a b : Int) (ha : 0 ≤ a) (hb : 0 < b) :
    Int.tdiv (a + b - 1) b = ⌈(a : ℚ) / (b : ℚ)⌉ := by
  have hc : (0 : Int) ≤ a + b - 1 := by omega
  rw [Int.tdiv_eq_ediv hc (by omega : (0 : Int) ≤ b)]
  symm
  rw [Int.ceil_eq_iff]
  have hmod := Int.ediv_add_emod (a + b - 1) b
  have hmn : 0 ≤ (a + b - 1) % b := Int.emod_nonneg _ (by omega)
  have hml : (a + b - 1) % b < b := Int.emod_lt_of_pos _ hb
  have h3 : a ≤ b * ((a + b - 1) / b) := by omega
  have h4 : b * ((a + b - 1) / b) - b < a := by omega
  have hbq : (0 : ℚ) < (b : ℚ) := by exact_mod_cast hb
  constructor
  · rw [lt_div_iff₀ hbq]
    have h4q : ((b * ((a + b - 1) / b) - b : Int) : ℚ) < ((a : Int) : ℚ) := by
      exact_mod_cast h4
    push_cast at h4q ⊢
    nlinarith [h4q]
  · rw [div_le_iff₀ hbq]
    have h3q : ((a : Int) : ℚ) ≤ ((b * ((a + b - 1) / b) : Int) : ℚ) := by
      exact_mod_cast h3
    push_cast at h3q ⊢
    nlinarith [h3q]

/-- Claim C5 as amended: for every List request with a nonnegative requested
page size, a page of 0 becomes 1 and a page size of 0 becomes 10; the
response's items are exactly the store's `List` at `limit = pageSize`,
`offset = (page-1)*pageSize`; its Total is the store's Count; and its
TotalPages is `ceil(Total / PageSize)`.  (For negative page sizes the code's
truncated-division formula deviates from the ceiling — see the
counterexample.) -/
theorem list_pagination_spec :
    ∀ st req, 0 ≤ req.PageSize →
      (ListUsersExecute st req).1 = .ok
        ⟨(storeList st (if req.PageSize = 0 then 10 else req.PageSize)
            (((if req.Page = 0 then 1 else req.Page) - 1) *
              (if req.PageSize = 0 then 10 else req.PageSize))).map
            (fun u => ⟨u.ID, u.Email, u.Name, u.Created, u.Updated⟩),
         storeCount st,
         (if req.Page = 0 then 1 else req.Page),
         (if req.PageSize = 0 then 10 else req.PageSize),
         ⌈(storeCount st : ℚ) /
           (((if req.PageSize = 0 then 10 else req.PageSize) : Int) : ℚ)⌉⟩ ∧
      (ListUsersExecute st req).2 = st := by
  intro st req hps
  have hpos : 0 < (if req.PageSize = 0 then 10 else req.PageSize) := by
    by_cases h : req.PageSize = 0
    · rw [if_pos h]; omega
    · rw [if_neg h]; omega
  have hcnt : 0 ≤ storeCount st := Int.natCast_nonneg _
  constructor
  · show Except.ok _ = Except.ok _
    rw [← tdiv_ceil _ _ hcnt hpos]
  · rfl

/-- Counterexample for C5 as stated: on a 2-record store, a request with
`PageSize = -2` yields `TotalPages = 0` from the code's truncated formula,
while `ceil(Total / PageSize) = ceil(2 / -2) = -1`. -/
theorem list_negative_pageSize_totalPages :
    ((ListUsersExecute twoUserStore ⟨1, -2⟩).1.toOption.map
      ListUsersResponse.TotalPages) = some 0 ∧
    ⌈(storeCount twoUserStore : ℚ) / ((-2 : Int) : ℚ)⌉ = -1 ∧
    (0 : Int) ≠ -1 := by
  refine ⟨by decide, ?_, by decide⟩
  have h2 : storeCount twoUserStore = 2 := by decide
  rw [h2]
  have : ((2 : Int) : ℚ) / ((-2 : Int) : ℚ) = ((-1 : Int) : ℚ) := by norm_num
  rw [this, Int.ceil_intCast]

/-- Witness for C5 at the all-defaults request on a concrete store. -/
theorem list_pagination_spec_witness :
    (ListUsersExecute twoUserStore ⟨0, 0⟩).1 = .ok
      ⟨(storeList twoUserStore (if (0 : Int) = 0 then 10 else 0)
          (((if (0 : Int) = 0 then 1 else 0) - 1) *
            (if (0 : Int) = 0 then 10 else 0))).map
          (fun u => ⟨u.ID, u.Email, u.Name, u.Created, u.Updated⟩),
       storeCount twoUserStore,
       (if (0 : Int) = 0 then 1 else 0),
       (if (0 : Int) = 0 then 10 else 0),
       ⌈(storeCount twoUserStore : ℚ) /
         (((if (0 : Int) = 0 then 10 else (0 : Int)) : Int) : ℚ)⌉⟩ ∧
    (ListUsersExecute twoUserStore ⟨0, 0⟩).2 = twoUserStore :=
  list_pagination_spec twoUserStore ⟨0, 0⟩ (by decide)

/-! ### Claim C6 -/

/-- Claim C6: whenever a Create invocation succeeds (the store commit went
through), its response and resulting store are identical under any other
notification capability — in particular one that fails — and a notification
failure is only recorded in the log. -/
theorem create_independent_of_notification :
    ∀ st req hash s1 s2 now r,
      (CreateUserExecute st req hash s1 now).1 = .ok r →
      ((CreateUserExecute st req hash s2 now).1 = .ok r ∧
       (CreateUserExecute st req hash s2 now).2.1 =
         (CreateUserExecute st req hash s1 now).2.1 ∧
       (∀ e, s2 r.Email r.Name = some e →
         "Failed to send welcome email" ∈ (CreateUserExecute st req hash s2 now).2.2)) := by
  intro st req hash s1 s2 now r h1
  by_cases ht : isEmailTaken st req.Email = true
  · rw [CreateUserExecute, if_pos ht] at h1
    exact absurd h1 (fun c => Except.noConfusion c)
  · rw [CreateUserExecute, if_neg ht] at h1
    cases hnu : NewUser req.Email req.Name req.Password now with
    | error e =>
      simp only [hnu] at h1
      exact absurd h1 (fun c => Except.noConfusion c)
    | ok user =>
      simp only [hnu] at h1
      cases hh : hash user.Password with
      | error e =>
        simp only [hh] at h1
        exact absurd h1 (fun c => Except.noConfusion c)
      | ok hp =>
        simp only [hh] at h1
        cases hsc : storeCreate st { user with Password := hp } with
        | error e =>
          simp only [hsc] at h1
          exact absurd h1 (fun c => Except.noConfusion c)
        | ok pr =>
          obtain ⟨created, st1⟩ := pr
          simp only [hsc] at h1
          have hr : r = ⟨created.ID, created.Email, created.Name, created.Created⟩ :=
            (Except.ok.inj h1).symm
          subst hr
          have hrun1 : ∀ s : Sender, (CreateUserExecute st req hash s now).1 =
              .ok ⟨created.ID, created.Email, created.Name, created.Created⟩ := by
            intro s
            rw [CreateUserExecute, if_neg ht]
            simp only [hnu, hh, hsc]
          have hrun2 : ∀ s : Sender, (CreateUserExecute st req hash s now).2.1 = st1 := by
            intro s
            rw [CreateUserExecute, if_neg ht]
            simp only [hnu, hh, hsc]
          refine ⟨hrun1 s2, by rw [hrun2 s1, hrun2 s2], ?_⟩
          intro e he
          rw [CreateUserExecute, if_neg ht]
          simp only [hnu, hh, hsc]
          rw [show s2 created.Email created.Name = some e from he]
          simp

/-- Witness for C6: a concrete successful Create returns the same response
and store under a failing notification capability, and the failure shows up
in the log. -/
theorem create_independent_of_notification_witness :
    (CreateUserExecute twoUserStore ⟨gs ("c@x.com"), gs ("Cee"), gs ("secret1")⟩
        hashId sendFail 7).1 = .ok ⟨3, gs ("c@x.com"), gs ("Cee"), 7⟩ ∧
    (CreateUserExecute twoUserStore ⟨gs ("c@x.com"), gs ("Cee"), gs ("secret1")⟩
        hashId sendFail 7).2.1 =
      (CreateUserExecute twoUserStore ⟨gs ("c@x.com"), gs ("Cee"), gs ("secret1")⟩
        hashId sendOk 7).2.1 ∧
    "Failed to send welcome email" ∈
      (CreateUserExecute twoUserStore ⟨gs ("c@x.com"), gs ("Cee"), gs ("secret1")⟩
        hashId sendFail 7).2.2 :=
  let h := create_independent_of_notification twoUserStore
    ⟨gs ("c@x.com"), gs ("Cee"), gs ("secret1")⟩ hashId sendOk sendFail 7
    ⟨3, gs ("c@x.com"), gs ("Cee"), 7⟩ (by decide)
  ⟨h.1, h.2.1, h.2.2 ("smtp down") (by decide)⟩

/-! ### Claim C7 -/

theorem isEmailTaken_scrub (st : Store) (e : GoStr) :
    isEmailTaken (scrubStore st) e = isEmailTaken st e := by
  unfold isEmailTaken scrubStore
  rw [alookup_mapVal]
  cases h : alookup st.emails (goNormalize e) <;> rfl

theorem insertByID_scrub (u : User) :
    ∀ l, insertByID (scrubUser u) (l.map scrubUser) = (insertByID u l).map scrubUser := by
  intro l; induction l with
  | nil => rfl
  | cons v t ih =>
    simp only [List.map_cons, insertByID]
    by_cases h : u.ID ≤ v.ID
    · rw [if_pos (show (scrubUser u).ID ≤ (scrubUser v).ID from h), if_pos h]
      rfl
    · rw [if_neg (show ¬ (scrubUser u).ID ≤ (scrubUser v).ID from h), if_neg h]
      rw [List.map_cons, ih]

theorem sortByID_scrub : ∀ l, sortByID (l.map scrubUser) = (sortByID l).map scrubUser := by
  intro l; induction l with
  | nil => rfl
  | cons v t ih =>
    simp only [List.map_cons, sortByID]
    rw [ih, insertByID_scrub]

theorem storeList_scrub (st : Store) (a b : Int) :
    storeList (scrubStore st) a b = (storeList st a b).map scrubUser := by
  unfold storeList scrubStore
  have h : (st.users.map (fun p => (p.1, scrubUser p.2))).map (fun p => p.2) =
      (st.users.map (fun p => p.2)).map scrubUser := by
    simp [List.map_map]
  rw [h, sortByID_scrub, ← List.map_drop, ← List.map_take]

theorem removeKey_mapVal {κ α β : Type} [DecidableEq κ] (f : α → β)
    (l : List (κ × α)) (k : κ) :
    removeKey (l.map (fun p => (p.1, f p.2))) k =
      (removeKey l k).map (fun p => (p.1, f p.2)) := by
  induction l with
  | nil => rfl
  | cons p t ih =>
    obtain ⟨k', v'⟩ := p
    simp only [List.map_cons, removeKey]
    by_cases hk : k' = k
    · rw [if_pos hk, if_pos hk]
      exact ih
    · rw [if_neg hk, if_neg hk, List.map_cons, ih]

theorem mapUpd_mapVal {κ α β : Type} [DecidableEq κ] (f : α → β)
    (l : List (κ × α)) (k : κ) (v : α) :
    mapUpd (l.map (fun p => (p.1, f p.2))) k (f v) =
      (mapUpd l k v).map (fun p => (p.1, f p.2)) := by
  unfold mapUpd
  rw [List.map_map, List.map_map]
  refine List.map_congr_left ?_
  intro p _
  by_cases hk : p.1 = k
  · simp [Function.comp, hk]
  · simp [Function.comp, hk]

theorem storeUpdate_scrub (st : Store) (v : User) :
    storeUpdate (scrubStore st) (scrubUser v) =
      (match storeUpdate st v with
       | .error e => .error e
       | .ok (w, st1) => .ok (scrubUser w, scrubStore st1)) := by
  unfold storeUpdate scrubStore
  rw [show (scrubUser v).ID = v.ID from rfl, alookup_mapVal]
  cases h3 : alookup st.users v.ID
  · rfl
  case some old =>
    simp only [Option.map_some']
    rw [show (scrubUser old).Email = old.Email from rfl,
      show (scrubUser v).Email = v.Email from rfl, removeKey_mapVal, alookup_mapVal]
    cases ho : alookup (removeKey st.emails old.Email) v.Email
    · have hn1 : ¬(v.Email ≠ old.Email ∧
          ((none : Option User).map scrubUser).isSome = true) :=
        fun c => Bool.noConfusion c.2
      have hn2 : ¬(v.Email ≠ old.Email ∧ (none : Option User).isSome = true) :=
        fun c => Bool.noConfusion c.2
      rw [if_neg hn1, if_neg hn2, mapUpd_mapVal]
      rfl
    case some w =>
      by_cases hA : v.Email ≠ old.Email
      · have hc1 : v.Email ≠ old.Email ∧
            ((some w).map scrubUser).isSome = true := ⟨hA, rfl⟩
        have hc2 : v.Email ≠ old.Email ∧ (some w : Option User).isSome = true :=
          ⟨hA, rfl⟩
        rw [if_pos hc1, if_pos hc2]
      · rw [if_neg (fun c => hA c.1), if_neg (fun c => hA c.1), mapUpd_mapVal]
        rfl

theorem updateCommit_scrub (st : Store) (v : User) :
    (match storeUpdate (scrubStore st) (scrubUser v) with
     | .error _ =>
       ((Except.error "erreur lors de la mise à jour" :
         Except String UpdateUserResponse), scrubStore st)
     | .ok (_, st1) =>
       (.ok ⟨(scrubUser v).ID, (scrubUser v).Email, (scrubUser v).Name,
         (scrubUser v).Updated⟩, st1)).1 =
    (match storeUpdate st v with
     | .error _ =>
       ((Except.error "erreur lors de la mise à jour" :
         Except String UpdateUserResponse), st)
     | .ok (_, st1) => (.ok ⟨v.ID, v.Email, v.Name, v.Updated⟩, st1)).1 := by
  rw [storeUpdate_scrub]
  cases hsu : storeUpdate st v
  · rfl
  case ok p =>
    obtain ⟨w, st1⟩ := p
    rfl

theorem updateTail_scrub (st : Store) (u : User) (req : UpdateUserRequest) (now : Int) :
    (match UpdateUserProfile (scrubUser u) req.Name req.Email now with
     | (some e, _) => ((Except.error e : Except String UpdateUserResponse), scrubStore st)
     | (none, u1) =>
       match storeUpdate (scrubStore st) u1 with
       | .error _ => (.error "erreur lors de la mise à jour", scrubStore st)
       | .ok (_, st1) => (.ok ⟨u1.ID, u1.Email, u1.Name, u1.Updated⟩, st1)).1 =
    (match UpdateUserProfile u req.Name req.Email now with
     | (some e, _) => ((Except.error e : Except String UpdateUserResponse), st)
     | (none, u1) =>
       match storeUpdate st u1 with
       | .error _ =>
         ((Except.error "erreur lors de la mise à jour" :
           Except String UpdateUserResponse), st)
       | .ok (_, st1) => (.ok ⟨u1.ID, u1.Email, u1.Name, u1.Updated⟩, st1)).1 := by
  unfold UpdateUserProfile
  cases hvn : validateName req.Name with
  | some e => rfl
  | none =>
    cases hve : validateEmail req.Email with
    | some e => rfl
    | none =>
      exact updateCommit_scrub st
        { u with Name := goTrimSpace req.Name,
                 Email := goToLower (goTrimSpace req.Email), Updated := now }

theorem storeCreate_ok_shape (st : Store) (u created : User) (st1 : Store)
    (h : storeCreate st u = .ok (created, st1)) :
    created = { u with ID := st.nextID } := by
  unfold storeCreate at h
  cases hal : alookup st.emails u.Email <;> rw [hal] at h
  · exact congrArg Prod.fst (Except.ok.inj h) |>.symm
  · exact absurd h (fun c => Except.noConfusion c)

theorem createExecute_ok_shape (st : Store) (req : CreateUserRequest)
    (hash : Hasher) (send : Sender) (now : Int) (r : CreateUserResponse)
    (h1 : (CreateUserExecute st req hash send now).1 = .ok r) :
    r = ⟨st.nextID, goNormalize req.Email, goTrimSpace req.Name, now⟩ := by
  by_cases ht : isEmailTaken st req.Email = true
  · rw [CreateUserExecute, if_pos ht] at h1
    exact absurd h1 (fun c => Except.noConfusion c)
  · rw [CreateUserExecute, if_neg ht] at h1
    cases hnu : NewUser req.Email req.Name req.Password now with
    | error e =>
      simp only [hnu] at h1
      exact absurd h1 (fun c => Except.noConfusion c)
    | ok user =>
      simp only [hnu] at h1
      cases hh : hash user.Password with
      | error e =>
        simp only [hh] at h1
        exact absurd h1 (fun c => Except.noConfusion c)
      | ok hp =>
        simp only [hh] at h1
        cases hsc : storeCreate st { user with Password := hp } with
        | error e =>
          simp only [hsc] at h1
          exact absurd h1 (fun c => Except.noConfusion c)
        | ok pr =>
          obtain ⟨created, st1⟩ := pr
          simp only [hsc] at h1
          have hcr := storeCreate_ok_shape _ _ _ _ hsc
          have hu := newUser_ok_fields _ _ _ _ _ hnu
          rw [(Except.ok.inj h1).symm, hcr, hu]
          rfl

/-- Claim C7: no use-case response carries the credential.  Get (by id and
by email), Update, and List produce identical responses on a store whose
records have had their password erased; and two successful Creates differing
only in the request password (and in the hashing and notification
capabilities) produce identical responses.  Together with the response
record types — which have no password field — every response carries only
identifier, email, name, and timestamps. -/
theorem responses_credential_free :
    (∀ st id, GetUserExecuteByID (scrubStore st) id = GetUserExecuteByID st id) ∧
    (∀ st email, GetUserExecuteByEmail (scrubStore st) email =
      GetUserExecuteByEmail st email) ∧
    (∀ st req now, (UpdateUserExecute (scrubStore st) req now).1 =
      (UpdateUserExecute st req now).1) ∧
    (∀ st req, (ListUsersExecute (scrubStore st) req).1 =
      (ListUsersExecute st req).1) ∧
    (∀ st em nm pw1 pw2 hash1 hash2 s1 s2 now r1 r2,
      (CreateUserExecute st ⟨em, nm, pw1⟩ hash1 s1 now).1 = .ok r1 →
      (CreateUserExecute st ⟨em, nm, pw2⟩ hash2 s2 now).1 = .ok r2 → r1 = r2) := by
  refine ⟨?_, ?_, ?_, ?_, ?_⟩
  · intro st id
    unfold GetUserExecuteByID storeGetById scrubStore
    rw [alookup_mapVal]
    cases h : alookup st.users id <;> simp [h, scrubUser]
  · intro st email
    unfold GetUserExecuteByEmail storeGetByEmail scrubStore
    rw [alookup_mapVal]
    cases h : alookup st.emails (goNormalize email) <;> simp [h, scrubUser]
  · intro st req now
    have hl : alookup (scrubStore st).users req.ID =
        (alookup st.users req.ID).map scrubUser := alookup_mapVal scrubUser st.users req.ID
    cases h : alookup st.users req.ID with
    | none =>
      have h2 : alookup (scrubStore st).users req.ID = none := by rw [hl, h]; rfl
      rw [UpdateUserExecute, UpdateUserExecute, storeGetById, storeGetById, h, h2]
    | some u =>
      have h2 : alookup (scrubStore st).users req.ID = some (scrubUser u) := by
        rw [hl, h]; rfl
      rw [UpdateUserExecute, UpdateUserExecute, storeGetById, storeGetById, h, h2]
      dsimp only
      simp only [show (scrubUser u).Email = u.Email from rfl, isEmailTaken_scrub]
      by_cases hc : u.Email ≠ req.Email ∧ isEmailTaken st req.Email = true
      · rw [if_pos hc, if_pos hc]
      · rw [if_neg hc, if_neg hc]
        exact updateTail_scrub st u req now
  · intro st req
    rw [ListUsersExecute, ListUsersExecute]
    dsimp only
    rw [storeList_scrub]
    have hc : storeCount (scrubStore st) = storeCount st := by
      unfold storeCount scrubStore
      rw [List.length_map]
    rw [hc, List.map_map]
    rfl
  · intro st em nm pw1 pw2 hash1 hash2 s1 s2 now r1 r2 h1 h2
    rw [createExecute_ok_shape st ⟨em, nm, pw1⟩ hash1 s1 now r1 h1,
      createExecute_ok_shape st ⟨em, nm, pw2⟩ hash2 s2 now r2 h2]

/-- Witness for C7's Create clause: two concrete Creates differing only in
the password (and notification outcome) produce the same response. -/
theorem responses_credential_free_witness :
    (CreateUserExecute twoUserStore ⟨gs ("c@x.com"), gs ("Cee"), gs ("secret1")⟩
        hashId sendOk 7).1 =
      (CreateUserExecute twoUserStore ⟨gs ("c@x.com"), gs ("Cee"), gs ("secret99")⟩
        hashId sendFail 7).1 := by
  have h1 : (CreateUserExecute twoUserStore ⟨gs ("c@x.com"), gs ("Cee"), gs ("secret1")⟩
      hashId sendOk 7).1 = .ok ⟨3, gs ("c@x.com"), gs ("Cee"), 7⟩ := by decide
  have h2 : (CreateUserExecute twoUserStore ⟨gs ("c@x.com"), gs ("Cee"), gs ("secret99")⟩
      hashId sendFail 7).1 = .ok ⟨3, gs ("c@x.com"), gs ("Cee"), 7⟩ := by decide
  have h3 := responses_credential_free.2.2.2.2 twoUserStore (gs ("c@x.com"))
    (gs ("Cee")) (gs ("secret1")) (gs ("secret99")) hashId hashId sendOk sendFail 7
    ⟨3, gs ("c@x.com"), gs ("Cee"), 7⟩ ⟨3, gs ("c@x.com"), gs ("Cee"), 7⟩ h1 h2
  rw [h1, h2, h3]

/-! ### Claim C1 -/

theorem alookup_mapWrite (b a : Nat) (v : User) (hne : b ≠ a) :
    ∀ l : List (Nat × User),
      alookup (l.map (fun p => if p.1 = b then (b, v) else p)) a = alookup l a := by
  intro l
  induction l with
  | nil => rfl
  | cons p t ih =>
    obtain ⟨k, w⟩ := p
    by_cases hk : k = b
    · subst hk
      simp only [List.map_cons, if_pos rfl]
      show alookup ((k, v) :: _) a = alookup ((k, w) :: t) a
      unfold alookup
      rw [if_neg hne, if_neg hne]
      exact ih
    · simp only [List.map_cons, if_neg hk]
      unfold alookup
      by_cases hka : k = a
      · rw [if_pos hka, if_pos hka]
      · rw [if_neg hka, if_neg hka]
        exact ih

theorem hread_hwrite_ne (h : HHeap) (b : Nat) (v : User) (a : Nat) (hne : b ≠ a) :
    hread (hwrite h b v) a = hread h a := by
  unfold hread hwrite
  exact alookup_mapWrite b a v hne h.cells

theorem alookup_cons {κ α : Type} [DecidableEq κ] (k : κ) (v : α)
    (t : List (κ × α)) (q : κ) :
    alookup ((k, v) :: t) q = if k = q then some v else alookup t q := rfl

theorem hread_halloc_lt (h : HHeap) (v : User) (a : Nat) (ha : a < h.next) :
    hread (halloc h v).2 a = hread h a := by
  unfold hread halloc
  show alookup ((h.next, v) :: h.cells) a = alookup h.cells a
  rw [alookup_cons, if_neg (by omega : ¬ h.next = a)]

theorem mockGetByID_ok (h : HHeap) (st : MockState) (id : Int) (b : Nat)
    (h1 : HHeap) (hok : mockGetByID h st id = .ok (b, h1)) :
    b = h.next ∧ ∃ a u, alookup st.users id = some a ∧ hread h a = some u ∧
      h1 = (halloc h u).2 := by
  unfold mockGetByID at hok
  cases ha : alookup st.users id
  · rw [ha] at hok
    exact absurd hok (fun c => Except.noConfusion c)
  case some a =>
    simp only [ha] at hok
    cases hr : hread h a
    · simp only [hr] at hok
      exact absurd hok (fun c => Except.noConfusion c)
    case some u =>
      simp only [hr, halloc] at hok
      have hp := Except.ok.inj hok
      exact ⟨(congrArg Prod.fst hp).symm, a, u, rfl, hr, (congrArg Prod.snd hp).symm⟩

theorem mockListGo_next :
    ∀ (l : List (Int × Nat)) (h : HHeap), h.next ≤ (mockListGo l h).2.next := by
  intro l
  induction l with
  | nil => intro h; exact le_refl _
  | cons p t ih =>
    intro h
    obtain ⟨i, a⟩ := p
    unfold mockListGo
    cases hr : hread h a
    · exact ih h
    case some u => exact le_trans (Nat.le_succ _) (ih (halloc h u).2)

theorem mockListGo_reads :
    ∀ (l : List (Int × Nat)) (h : HHeap) (a : Nat), a < h.next →
      hread (mockListGo l h).2 a = hread h a := by
  intro l
  induction l with
  | nil => intro h a _; rfl
  | cons p t ih =>
    intro h a ha
    obtain ⟨i, c⟩ := p
    unfold mockListGo
    cases hr : hread h c
    · exact ih h a ha
    case some u =>
      have h2 := ih (halloc h u).2 a (Nat.lt_succ_of_lt ha)
      exact h2.trans (hread_halloc_lt h u a ha)

theorem mockListGo_mem :
    ∀ (l : List (Int × Nat)) (h : HHeap) (b : Nat),
      b ∈ (mockListGo l h).1 → h.next ≤ b := by
  intro l
  induction l with
  | nil => intro h b hmem; exact absurd hmem (List.not_mem_nil b)
  | cons p t ih =>
    intro h b hmem
    obtain ⟨i, c⟩ := p
    unfold mockListGo at hmem
    cases hr : hread h c <;> rw [hr] at hmem
    · exact ih h b hmem
    case some u =>
      rcases List.mem_cons.mp hmem with hb | hb
      · exact le_of_eq hb.symm
      · exact le_trans (Nat.le_succ _) (ih (halloc h u).2 b hb)

/-- Claim C1 as amended: in the heap embedding of the mock repository, the
pointer returned by `GetByID` — and every pointer in the slice returned by
`List` — is freshly allocated, so writing any record through it leaves every
subsequent `GetByID` result unchanged.  The claim's inclusion of `Create`
is false: `Create` returns the very pointer it stores in its maps (see the
counterexample). -/
theorem getById_list_copy_isolation :
    (∀ h st id b h1 v id2, WFMock h st → mockGetByID h st id = .ok (b, h1) →
      mockGetVal (hwrite h1 b v) st id2 = mockGetVal h st id2) ∧
    (∀ h st b v id2, WFMock h st → b ∈ (mockList h st).1 →
      mockGetVal (hwrite (mockList h st).2 b v) st id2 = mockGetVal h st id2) := by
  constructor
  · intro h st id b h1 v id2 hwf hok
    obtain ⟨hb, a, u, -, -, hh1⟩ := mockGetByID_ok h st id b h1 hok
    subst hb; subst hh1
    unfold mockGetVal
    cases hl : alookup st.users id2
    · rfl
    case some a2 =>
      have ha2 : a2 < h.next := hwf (id2, a2) (alookup_mem hl)
      show hread (hwrite (halloc h u).2 h.next v) a2 = hread h a2
      rw [hread_hwrite_ne _ _ _ _ (by omega : h.next ≠ a2)]
      exact hread_halloc_lt h u a2 ha2
  · intro h st b v id2 hwf hbmem
    have hble : h.next ≤ b := mockListGo_mem st.users h b hbmem
    unfold mockGetVal
    cases hl : alookup st.users id2
    · rfl
    case some a2 =>
      have ha2 : a2 < h.next := hwf (id2, a2) (alookup_mem hl)
      show hread (hwrite (mockList h st).2 b v) a2 = hread h a2
      rw [hread_hwrite_ne _ _ _ _ (by omega : b ≠ a2)]
      exact mockListGo_reads st.users h a2 ha2

/-- Counterexample for C1's `Create` clause: starting from an empty mock
store, `Create` succeeds and returns pointer 1 — the very pointer recorded
in both internal maps.  Writing a record with a different name through that
returned pointer makes the subsequent `GetByID(1)` hand out the mutated
record: the caller mutated store-internal state through `Create`'s return
value. -/
theorem create_returns_internal_pointer :
    mockCreate c1heap0 c1st0 0 = .ok (1, c1heap2, c1st1) ∧
    alookup c1st1.users 1 = some 1 ∧
    alookup c1st1.emails (gs ("al@x.com")) = some 1 ∧
    mockGetVal c1heap2 c1st1 1 = some c1u1 ∧
    mockGetVal (hwrite c1heap2 1 c1mut) c1st1 1 = some c1mut ∧
    c1mut.Name ≠ c1u1.Name := by decide

/-- Witness for C1: on the concrete post-`Create` state, mutating the copy
returned by `GetByID(1)` (which lives at the fresh address 2) does not
change what `GetByID(1)` returns. -/
theorem getById_list_copy_isolation_witness :
    mockGetVal (hwrite c1heap3 2 c1mut) c1st1 1 = mockGetVal c1heap2 c1st1 1 :=
  getById_list_copy_isolation.1 c1heap2 c1st1 1 2 c1heap3 c1mut 1
    (by decide) (by decide)

/-- Claim C9 as amended: `NewUser` accepts exactly the inputs with a trimmed
email that is non-empty, contains `@` and is at most 255 bytes; a trimmed
name of 2 to 100 bytes with no case-insensitive offensive-word substring and
characters drawn from Latin letters, RE2 whitespace (vertical tab excluded),
hyphen, apostrophe, and period; and a non-empty password of 6 to 128 bytes. -/
theorem newUser_acceptance_iff :
    ∀ e n p now, (NewUser e n p now).isOk = true ↔ amendedAccepts e n p := by
  intro e n p now
  rw [newUser_ok_iff, validateEmail_none_iff, validateName_none_iff,
    validatePassword_none_iff]
  rfl
